import Mathlib

/-!
Verification of the dfget-task registry
(`supernode/daemon/mgr/dfgettask/manager.go` of Dragonfly).

The manager keeps two stores: a primary store from the composite key
`CID@TaskID` to the full task record, and a peer index `ptoc` from the
composite key `PeerID@TaskID` to the record's CID, plus three metric
families (a live-task gauge labelled by call-system and status, a
registration counter and a failure counter labelled by call-system).

Go strings are embedded as `List Char`; the two collaborator key-value
stores (`dutil.Store` and `syncmap.SyncMap`, which the spec treats as
given synchronized maps with get/put/delete/iterate) are embedded as
association lists whose operations follow Go map semantics: `putA`
overwrites, `delA` removes the binding, `lookupA` is point lookup,
iteration is list order (the real iteration order is unspecified).
-/

namespace Dfgettask

/-- A Go string, embedded as its list of characters. -/
abbrev GoStr := List Char

/-! ### Association-list maps (the collaborator stores) -/

/-- Point lookup in an association list (Go map read). -/
def lookupA : List (GoStr × α) → GoStr → Option α
  | [], _ => none
  | (k, v) :: rest, key => if k = key then some v else lookupA rest key

/-- Unconditional upsert (Go map write, last write wins): replaces the
binding in place if the key is present, otherwise appends it. -/
def putA (key : GoStr) (v : α) : List (GoStr × α) → List (GoStr × α)
  | [] => [(key, v)]
  | (k, w) :: rest => if k = key then (key, v) :: rest else (k, w) :: putA key v rest

/-- Key removal (Go map delete): drops every binding of the key (a Go
map holds at most one). -/
def delA (key : GoStr) : List (GoStr × α) → List (GoStr × α)
  | [] => []
  | (k, w) :: rest => if k = key then delA key rest else (k, w) :: delA key rest

/-! ### Splitting a string on a separator character

`strings.Split(s, sep)` for a one-character separator: Go returns the
list of (possibly empty) segments between occurrences of the separator;
splitting the empty string yields one empty segment. -/

/-- Go's `strings.Split` restricted to a single-character separator. -/
def splitOnChar (sep : Char) : List Char → List (List Char)
  | [] => [[]]
  | c :: rest =>
      if c = sep then [] :: splitOnChar sep rest
      else
        match splitOnChar sep rest with
        | [] => [[c]]
        | seg :: segs => (c :: seg) :: segs

/-! ### Data model -/

/-- A task record.  Modelled from the spec: the record type
(`types.DfGetTask` of the API package) is not part of this repository
slice; the spec (section 3) lists client-identity (CID), peer-identity,
task-identity, call-system, status and path as the semantically
relevant attributes, "plus arbitrary additional descriptive fields" —
represented here by `PieceSize` and `Dfdaemon`. -/
structure DfGetTask where
  CID : GoStr
  TaskID : GoStr
  PeerID : GoStr
  Path : GoStr
  Status : GoStr
  CallSystem : GoStr
  PieceSize : Int
  Dfdaemon : Bool
deriving DecidableEq

/-- Status constant WAITING (`types.DfGetTaskStatusWAITING`). -/
def DfGetTaskStatusWAITING : GoStr := "WAITING".toList

/-- Status constant SUCCESS (`types.DfGetTaskStatusSUCCESS`). -/
def DfGetTaskStatusSUCCESS : GoStr := "SUCCESS".toList

/-- Status constant FAILED (`types.DfGetTaskStatusFAILED`). -/
def DfGetTaskStatusFAILED : GoStr := "FAILED".toList

/-- Error kinds surfaced by the manager.  Modelled from the spec
(section 7): `EmptyValue` (with the name of the blank field),
`NotFound`, and the defensive `ConvertFailed` (which the typed
embedding can never produce). -/
inductive GoErr where
  | EmptyValue (field : GoStr)
  | NotFound
  | ConvertFailed
deriving DecidableEq

/-- The reserved joiner character `keyJoinChar = "@"`. -/
def keyJoinChar : Char := '@'

/-- Modelled from the spec: `stringutils.IsEmptyStr` is not part of
this repository slice; the spec says a required identifier field is
rejected when blank/empty. -/
def isEmptyStr (s : GoStr) : Bool := s.isEmpty

/-- The three metric families of `newMetrics`.  Modelled from the spec
(section 4.4): the metrics-export subsystem is an external sink; each
family is a map from its label values to its current value. -/
structure Metrics where
  dfgetTasks : GoStr × GoStr → Int
  dfgetTasksRegisterCount : GoStr → Nat
  dfgetTasksFailCount : GoStr → Nat

/-- Gauge update `gauge.WithLabelValues(...).Inc()` / `.Dec()`:
add `d` to the gauge entry for label `l`. -/
def bumpG (g : GoStr × GoStr → Int) (l : GoStr × GoStr) (d : Int) : GoStr × GoStr → Int :=
  fun x => if x = l then g x + d else g x

/-- Counter update `counter.WithLabelValues(...).Inc()`:
add 1 to the counter entry for label `l`. -/
def bumpC (c : GoStr → Nat) (l : GoStr) : GoStr → Nat :=
  fun x => if x = l then c x + 1 else c x

/-- The manager state: the two stores, the metrics, and the
configuration lookup.  Modelled from the spec (section 6): the
configuration is an external collaborator exposing the two reserved
identity predicates (`cfg.IsSuperPID` and `cfg.IsSuperCID`). -/
structure Manager where
  cfg_isSuperPID : GoStr → Bool
  cfg_isSuperCID : GoStr → Bool
  dfgetTaskStore : List (GoStr × DfGetTask)
  ptoc : List (GoStr × GoStr)
  metrics : Metrics

/-- Constructor `NewManager`: empty stores and zeroed metrics. -/
def NewManager (isSuperPID isSuperCID : GoStr → Bool) : Manager where
  cfg_isSuperPID := isSuperPID
  cfg_isSuperCID := isSuperCID
  dfgetTaskStore := []
  ptoc := []
  metrics :=
    { dfgetTasks := fun _ => 0
      dfgetTasksRegisterCount := fun _ => 0
      dfgetTasksFailCount := fun _ => 0 }

/-! ### Key codec -/

/-- Key codec `generateKey(cID, taskID)`: rejects an empty component, otherwise
returns `cID + "@" + taskID`. -/
def generateKey (cID taskID : GoStr) : Except GoErr GoStr :=
  if isEmptyStr cID then Except.error (GoErr.EmptyValue "cID".toList)
  else if isEmptyStr taskID then Except.error (GoErr.EmptyValue "taskID".toList)
  else Except.ok (cID ++ keyJoinChar :: taskID)

/-- Peer key codec `generatePeerKey(peerID, taskID) = peerID + "@" + taskID`. -/
def generatePeerKey (peerID taskID : GoStr) : GoStr :=
  peerID ++ keyJoinChar :: taskID

/-! ### Operations -/

/-- The in-place defaulting of an empty status to WAITING performed by
`Add` before the stores and metrics are touched. -/
def statusDefaulted (t : DfGetTask) : DfGetTask :=
  if isEmptyStr t.Status then { t with Status := DfGetTaskStatusWAITING } else t

/-- Operation `Add`: validate `Path` and `PeerID`, build the primary key from
`CID` and `TaskID`, default the status, write the peer-index entry and
the primary record, and (unless the task was created by the supernode
CDN itself) bump the live-task gauge and the registration counter.
A mutating method returns the updated state and the Go error value. -/
def Add (dtm : Manager) (t0 : DfGetTask) : Manager × Option GoErr :=
  if isEmptyStr t0.Path then (dtm, some (GoErr.EmptyValue "Path".toList))
  else if isEmptyStr t0.PeerID then (dtm, some (GoErr.EmptyValue "PeerID".toList))
  else
    match generateKey t0.CID t0.TaskID with
    | Except.error e => (dtm, some e)
    | Except.ok key =>
        let t := statusDefaulted t0
        ({ dtm with
            ptoc := putA (generatePeerKey t.PeerID t.TaskID) t.CID dtm.ptoc
            dfgetTaskStore := putA key t dtm.dfgetTaskStore
            metrics :=
              if !dtm.cfg_isSuperPID t.PeerID || !dtm.cfg_isSuperCID t.CID then
                { dtm.metrics with
                    dfgetTasks := bumpG dtm.metrics.dfgetTasks (t.CallSystem, t.Status) 1
                    dfgetTasksRegisterCount :=
                      bumpC dtm.metrics.dfgetTasksRegisterCount t.CallSystem }
              else dtm.metrics },
         none)

/-- Helper `getDfgetTask`: build the key, look it up in the primary store.
The stored value is a record by construction, so the defensive
`ConvertFailed` branch of the source is unreachable here. -/
def getDfgetTask (dtm : Manager) (clientID taskID : GoStr) : Except GoErr DfGetTask :=
  match generateKey clientID taskID with
  | Except.error e => Except.error e
  | Except.ok key =>
      match lookupA dtm.dfgetTaskStore key with
      | none => Except.error GoErr.NotFound
      | some t => Except.ok t

/-- Operation `Get`: point lookup by clientID and taskID. -/
def Get (dtm : Manager) (clientID taskID : GoStr) : Except GoErr DfGetTask :=
  getDfgetTask dtm clientID taskID

/-- Operation `GetCIDByPeerIDAndTaskID`: point lookup in the peer index
(the syncmap's `GetAsString` fails with NotFound when absent). -/
def GetCIDByPeerIDAndTaskID (dtm : Manager) (peerID taskID : GoStr) : Except GoErr GoStr :=
  match lookupA dtm.ptoc (generatePeerKey peerID taskID) with
  | none => Except.error GoErr.NotFound
  | some cid => Except.ok cid

/-- Operation `GetCIDsByTaskID`: range over the peer index; for every key that
ends with `"@" + taskID`, resolve its CID and append it (the Go error
result is always nil). -/
def GetCIDsByTaskID (dtm : Manager) (taskID : GoStr) : List GoStr :=
  dtm.ptoc.foldl
    (fun result kv =>
      if List.isSuffixOf (keyJoinChar :: taskID) kv.1 then
        match lookupA dtm.ptoc kv.1 with
        | none => result
        | some cid => result ++ [cid]
      else result)
    []

/-- Operation `GetCIDAndTaskIDsByPeerID`: range over the peer index; for every
key that starts with `peerID + "@"`, resolve its CID and record
`result[cid] = last "@"-separated segment of the key`; the Go map is
embedded as an association list written with `putA`. -/
def GetCIDAndTaskIDsByPeerID (dtm : Manager) (peerID : GoStr) : List (GoStr × GoStr) :=
  dtm.ptoc.foldl
    (fun result kv =>
      if List.isPrefixOf (peerID ++ [keyJoinChar]) kv.1 then
        match lookupA dtm.ptoc kv.1 with
        | none => result
        | some cid => putA cid ((splitOnChar keyJoinChar kv.1).getLastD []) result
      else result)
    []

/-- Operation `Delete`: build the key, look up the record (NotFound when absent),
remove its peer-index entry, decrement the gauge unless the client is
the supernode's own CID, and remove the primary record.  The final
store removal cannot fail here because the key was just found
(Modelled from the spec, section 4.2: the primary store's delete fails
only when the key is absent). -/
def Delete (dtm : Manager) (clientID taskID : GoStr) : Manager × Option GoErr :=
  match generateKey clientID taskID with
  | Except.error e => (dtm, some e)
  | Except.ok key =>
      match lookupA dtm.dfgetTaskStore key with
      | none => (dtm, some GoErr.NotFound)
      | some t =>
          ({ dtm with
              ptoc := delA (generatePeerKey t.PeerID t.TaskID) dtm.ptoc
              dfgetTaskStore := delA key dtm.dfgetTaskStore
              metrics :=
                if !dtm.cfg_isSuperCID clientID then
                  { dtm.metrics with
                      dfgetTasks := bumpG dtm.metrics.dfgetTasks (t.CallSystem, t.Status) (-1) }
                else dtm.metrics },
           none)

/-- Operation `UpdateStatus`: look up the record; if its status is not SUCCESS,
move the gauge from the old to the new status and assign the new status
(the record is held by pointer, so the assignment updates the stored
record — embedded as `putA` on the found key); afterwards, if the
record's (possibly updated) status is FAILED, bump the failure counter.
The failure check reads the record's status field, which the two
branches duplicate to mirror the pointer mutation. -/
def UpdateStatus (dtm : Manager) (clientID taskID status : GoStr) : Manager × Option GoErr :=
  match generateKey clientID taskID with
  | Except.error e => (dtm, some e)
  | Except.ok key =>
      match lookupA dtm.dfgetTaskStore key with
      | none => (dtm, some GoErr.NotFound)
      | some t =>
          if t.Status ≠ DfGetTaskStatusSUCCESS then
            let t' : DfGetTask := { t with Status := status }
            let gauges :=
              bumpG (bumpG dtm.metrics.dfgetTasks (t.CallSystem, t.Status) (-1))
                (t.CallSystem, status) 1
            let fails :=
              if t'.Status = DfGetTaskStatusFAILED then
                bumpC dtm.metrics.dfgetTasksFailCount t'.CallSystem
              else dtm.metrics.dfgetTasksFailCount
            ({ dtm with
                dfgetTaskStore := putA key t' dtm.dfgetTaskStore
                metrics :=
                  { dtm.metrics with dfgetTasks := gauges, dfgetTasksFailCount := fails } },
             none)
          else
            let fails :=
              if t.Status = DfGetTaskStatusFAILED then
                bumpC dtm.metrics.dfgetTasksFailCount t.CallSystem
              else dtm.metrics.dfgetTasksFailCount
            ({ dtm with
                metrics := { dtm.metrics with dfgetTasksFailCount := fails } },
             none)

/-! ### Concrete sample data for witnesses and counterexamples -/

/-- A configuration in which no identity is the supernode's own. -/
def cfgNone : GoStr → Bool := fun _ => false

/-- A sample valid task record (its empty status gets defaulted). -/
def sampleTask : DfGetTask where
  CID := "c1".toList
  TaskID := "t1".toList
  PeerID := "p1".toList
  Path := "/data".toList
  Status := []
  CallSystem := "cs".toList
  PieceSize := 4
  Dfdaemon := false

/-- The sample record with a blank path. -/
def noPathTask : DfGetTask := { sampleTask with Path := [] }

/-- A freshly constructed manager. -/
def baseManager : Manager := NewManager cfgNone cfgNone

/-- A record whose status is already SUCCESS, and a manager holding it. -/
def succTask : DfGetTask where
  CID := "c".toList
  TaskID := "t".toList
  PeerID := "p".toList
  Path := "/d".toList
  Status := DfGetTaskStatusSUCCESS
  CallSystem := "cs".toList
  PieceSize := 0
  Dfdaemon := false

/-- A manager holding exactly the SUCCESS record `succTask`. -/
def succManager : Manager where
  cfg_isSuperPID := cfgNone
  cfg_isSuperCID := cfgNone
  dfgetTaskStore := [("c@t".toList, succTask)]
  ptoc := [("p@t".toList, "c".toList)]
  metrics :=
    { dfgetTasks := fun _ => 0
      dfgetTasksRegisterCount := fun _ => 0
      dfgetTasksFailCount := fun _ => 0 }

/-- Three sample records sharing task-identity "T". -/
def task8a : DfGetTask :=
  { sampleTask with CID := "a1".toList, PeerID := "q1".toList, TaskID := "T".toList }

/-- Second sample record sharing task-identity "T". -/
def task8b : DfGetTask :=
  { sampleTask with CID := "a2".toList, PeerID := "q2".toList, TaskID := "T".toList }

/-- Third sample record sharing task-identity "T". -/
def task8c : DfGetTask :=
  { sampleTask with CID := "a3".toList, PeerID := "q3".toList, TaskID := "T".toList }

/-- The peer-index key a record produces: `PeerID@TaskID`. -/
def peerKeyOf (t : DfGetTask) : GoStr := generatePeerKey t.PeerID t.TaskID

/-- The lockstep invariant of C3: every live record has its own
peer-index entry (keyed by its peer-identity and task-identity, holding
its CID), every peer-index entry comes from a live record, and no two
live records share a peer-index entry. -/
def Inv (s : Manager) : Prop :=
  (∀ k t, lookupA s.dfgetTaskStore k = some t →
      lookupA s.ptoc (peerKeyOf t) = some t.CID) ∧
  (∀ pk c, lookupA s.ptoc pk = some c →
      ∃ k t, lookupA s.dfgetTaskStore k = some t ∧ pk = peerKeyOf t ∧ c = t.CID) ∧
  (∀ k₁ t₁ k₂ t₂, lookupA s.dfgetTaskStore k₁ = some t₁ →
      lookupA s.dfgetTaskStore k₂ = some t₂ → peerKeyOf t₁ = peerKeyOf t₂ → k₁ = k₂)

/-- A first record for the C3 counterexample. -/
def invTask1 : DfGetTask where
  CID := "c1".toList
  TaskID := "t".toList
  PeerID := "p".toList
  Path := "/d".toList
  Status := DfGetTaskStatusWAITING
  CallSystem := "cs".toList
  PieceSize := 0
  Dfdaemon := false

/-- A second record sharing (peer-identity, task-identity) with
`invTask1` but carrying a different CID. -/
def invTask2 : DfGetTask := { invTask1 with CID := "c2".toList }

/-- The registry after adding both records to a fresh manager. -/
def invState : Manager := (Add (Add baseManager invTask1).1 invTask2).1

theorem lookupA_putA (m : List (GoStr × α)) (k k' : GoStr) (v : α) :
    lookupA (putA k v m) k' = if k' = k then some v else lookupA m k' := by
  induction m with
  | nil =>
      by_cases h : k = k'
      · subst h; simp [putA, lookupA]
      · simp [putA, lookupA, h, Ne.symm h]
  | cons hd tl ih =>
      obtain ⟨k₀, w⟩ := hd
      simp only [putA]
      by_cases h0 : k₀ = k
      · subst h0
        by_cases h : k₀ = k'
        · subst h; simp [lookupA]
        · simp [lookupA, h, Ne.symm h]
      · rw [if_neg h0]
        simp only [lookupA]
        by_cases h : k₀ = k'
        · subst h
          simp [h0, Ne.symm h0]
        · simp [h, ih]

theorem lookupA_delA (m : List (GoStr × α)) (k k' : GoStr) :
    lookupA (delA k m) k' = if k' = k then none else lookupA m k' := by
  induction m with
  | nil =>
      by_cases h : k' = k <;> simp [delA, lookupA, h]
  | cons hd tl ih =>
      obtain ⟨k₀, w⟩ := hd
      simp only [delA]
      by_cases h0 : k₀ = k
      · subst h0
        rw [if_pos rfl, ih]
        by_cases h : k' = k₀
        · simp [h]
        · simp [lookupA, h, Ne.symm h]
      · rw [if_neg h0]
        simp only [lookupA]
        by_cases h : k₀ = k'
        · subst h
          simp [h0, Ne.symm h0]
        · simp [h, ih]

theorem splitOnChar_cons_self (sep : Char) (rest : List Char) :
    splitOnChar sep (sep :: rest) = [] :: splitOnChar sep rest := by
  simp [splitOnChar]

theorem splitOnChar_cons_ne (sep c : Char) (rest : List Char) (h : ¬ c = sep)
    (seg : List Char) (segs : List (List Char))
    (hs : splitOnChar sep rest = seg :: segs) :
    splitOnChar sep (c :: rest) = (c :: seg) :: segs := by
  simp only [splitOnChar]
  rw [if_neg h, hs]

theorem splitOnChar_ne_nil (sep : Char) (l : List Char) : splitOnChar sep l ≠ [] := by
  induction l with
  | nil => simp [splitOnChar]
  | cons c rest ih =>
      by_cases h : c = sep
      · subst h; rw [splitOnChar_cons_self]; simp
      · cases hs : splitOnChar sep rest with
        | nil => exact absurd hs ih
        | cons seg segs => rw [splitOnChar_cons_ne sep c rest h seg segs hs]; simp

theorem splitOnChar_of_not_mem (sep : Char) (l : List Char) (h : sep ∉ l) :
    splitOnChar sep l = [l] := by
  induction l with
  | nil => rfl
  | cons c rest ih =>
      have hc : ¬ c = sep := fun hcc => h (by simp [hcc])
      have hr : sep ∉ rest := fun hrr => h (by simp [hrr])
      rw [splitOnChar_cons_ne sep c rest hc rest [] (ih hr)]

theorem getLastD_irrel (l : List (List Char)) (h : l ≠ []) (d d' : List Char) :
    l.getLastD d = l.getLastD d' := by
  cases l with
  | nil => exact absurd rfl h
  | cons a t => rw [List.getLastD_cons, List.getLastD_cons]

theorem two_le_length_splitOnChar (sep : Char) (a b : List Char) :
    2 ≤ (splitOnChar sep (a ++ sep :: b)).length := by
  induction a with
  | nil =>
      rw [List.nil_append, splitOnChar_cons_self, List.length_cons]
      have := List.length_pos.mpr (splitOnChar_ne_nil sep b)
      omega
  | cons c a' ih =>
      by_cases hc : c = sep
      · rw [List.cons_append, hc, splitOnChar_cons_self, List.length_cons]
        have := List.length_pos.mpr (splitOnChar_ne_nil sep (a' ++ sep :: b))
        omega
      · cases hs : splitOnChar sep (a' ++ sep :: b) with
        | nil => exact absurd hs (splitOnChar_ne_nil sep _)
        | cons seg segs =>
            rw [List.cons_append, splitOnChar_cons_ne sep c _ hc seg segs hs]
            rw [hs] at ih
            simpa using ih

theorem getLastD_splitOnChar_append (sep : Char) (a b : List Char) (d : List Char) :
    (splitOnChar sep (a ++ sep :: b)).getLastD d = (splitOnChar sep b).getLastD d := by
  induction a with
  | nil =>
      rw [List.nil_append, splitOnChar_cons_self, List.getLastD_cons]
      exact getLastD_irrel _ (splitOnChar_ne_nil sep b) [] d
  | cons c a' ih =>
      by_cases hc : c = sep
      · rw [List.cons_append, hc, splitOnChar_cons_self, List.getLastD_cons]
        calc (splitOnChar sep (a' ++ sep :: b)).getLastD []
            = (splitOnChar sep (a' ++ sep :: b)).getLastD d :=
              getLastD_irrel _ (splitOnChar_ne_nil sep _) [] d
          _ = (splitOnChar sep b).getLastD d := ih
      · cases hs : splitOnChar sep (a' ++ sep :: b) with
        | nil => exact absurd hs (splitOnChar_ne_nil sep _)
        | cons seg segs =>
            have hlen := two_le_length_splitOnChar sep a' b
            rw [hs] at hlen
            cases segs with
            | nil => simp at hlen
            | cons seg2 segs2 =>
                rw [List.cons_append,
                  splitOnChar_cons_ne sep c _ hc seg (seg2 :: segs2) hs,
                  List.getLastD_cons, List.getLastD_cons]
                have h1 := ih
                rw [hs, List.getLastD_cons, List.getLastD_cons] at h1
                exact h1

/-! ### Basic facts about the operations -/

theorem isEmptyStr_eq_false (s : GoStr) (h : s ≠ []) : isEmptyStr s = false := by
  cases s with
  | nil => exact absurd rfl h
  | cons c rest => rfl

theorem generateKey_ok (c tid : GoStr) (hc : c ≠ []) (ht : tid ≠ []) :
    generateKey c tid = Except.ok (c ++ keyJoinChar :: tid) := by
  simp [generateKey, isEmptyStr_eq_false c hc, isEmptyStr_eq_false tid ht]

theorem statusDefaulted_CID (t : DfGetTask) : (statusDefaulted t).CID = t.CID := by
  unfold statusDefaulted; split <;> rfl

theorem statusDefaulted_TaskID (t : DfGetTask) : (statusDefaulted t).TaskID = t.TaskID := by
  unfold statusDefaulted; split <;> rfl

theorem statusDefaulted_PeerID (t : DfGetTask) : (statusDefaulted t).PeerID = t.PeerID := by
  unfold statusDefaulted; split <;> rfl

theorem statusDefaulted_Path (t : DfGetTask) : (statusDefaulted t).Path = t.Path := by
  unfold statusDefaulted; split <;> rfl

theorem statusDefaulted_CallSystem (t : DfGetTask) :
    (statusDefaulted t).CallSystem = t.CallSystem := by
  unfold statusDefaulted; split <;> rfl

/-- Explicit form of a successful `Add`. -/
theorem Add_eq_of_valid (s : Manager) (t : DfGetTask)
    (hp : t.Path ≠ []) (hpe : t.PeerID ≠ []) (hc : t.CID ≠ []) (ht : t.TaskID ≠ []) :
    Add s t =
      ({ s with
          ptoc := putA (generatePeerKey t.PeerID t.TaskID) t.CID s.ptoc
          dfgetTaskStore :=
            putA (t.CID ++ keyJoinChar :: t.TaskID) (statusDefaulted t) s.dfgetTaskStore
          metrics :=
            if !s.cfg_isSuperPID t.PeerID || !s.cfg_isSuperCID t.CID then
              { s.metrics with
                  dfgetTasks :=
                    bumpG s.metrics.dfgetTasks (t.CallSystem, (statusDefaulted t).Status) 1
                  dfgetTasksRegisterCount :=
                    bumpC s.metrics.dfgetTasksRegisterCount t.CallSystem }
            else s.metrics },
       none) := by
  simp only [Add, isEmptyStr_eq_false t.Path hp, isEmptyStr_eq_false t.PeerID hpe,
    generateKey_ok t.CID t.TaskID hc ht, Bool.false_eq_true, if_false,
    statusDefaulted_PeerID, statusDefaulted_TaskID, statusDefaulted_CID,
    statusDefaulted_CallSystem]

theorem isEmptyStr_iff (s : GoStr) : isEmptyStr s = true ↔ s = [] := List.isEmpty_iff

/-! ### Claims -/

/-- C5: for every non-empty clientID and taskID for which no record
exists, `Delete(clientID, taskID)` fails with NotFound and leaves the
whole state — both stores and the metrics — exactly as it was. -/
theorem claim5_delete_missing_noop (s : Manager) (clientID taskID : GoStr)
    (hc : clientID ≠ []) (ht : taskID ≠ [])
    (habs : lookupA s.dfgetTaskStore (clientID ++ keyJoinChar :: taskID) = none) :
    Delete s clientID taskID = (s, some GoErr.NotFound) := by
  simp [Delete, generateKey_ok clientID taskID hc ht, habs]

theorem claim5_witness :
    Delete baseManager ("c".toList) ("t".toList) = (baseManager, some GoErr.NotFound) :=
  claim5_delete_missing_noop baseManager ("c".toList) ("t".toList)
    (by decide) (by decide) rfl

/-- C6: `Add` of a record whose path, peer-identity, client-identity or
task-identity is empty fails with an EmptyValue error and leaves the
whole state (both stores and the metrics) unchanged. -/
theorem claim6_add_empty_field_noop (s : Manager) (t : DfGetTask)
    (h : t.Path = [] ∨ t.PeerID = [] ∨ t.CID = [] ∨ t.TaskID = []) :
    (Add s t).1 = s ∧ ∃ fld, (Add s t).2 = some (GoErr.EmptyValue fld) := by
  have key : ∃ fld, Add s t = (s, some (GoErr.EmptyValue fld)) := by
    by_cases hp : isEmptyStr t.Path = true
    · exact ⟨"Path".toList, by simp [Add, hp]⟩
    · by_cases hpe : isEmptyStr t.PeerID = true
      · exact ⟨"PeerID".toList, by simp [Add, hp, hpe]⟩
      · by_cases hcid : isEmptyStr t.CID = true
        · exact ⟨"cID".toList, by simp [Add, generateKey, hp, hpe, hcid]⟩
        · by_cases htid : isEmptyStr t.TaskID = true
          · exact ⟨"taskID".toList, by simp [Add, generateKey, hp, hpe, hcid, htid]⟩
          · exfalso
            rcases h with h | h | h | h
            · exact hp ((isEmptyStr_iff _).mpr h)
            · exact hpe ((isEmptyStr_iff _).mpr h)
            · exact hcid ((isEmptyStr_iff _).mpr h)
            · exact htid ((isEmptyStr_iff _).mpr h)
  obtain ⟨fld, hf⟩ := key
  exact ⟨by rw [hf], ⟨fld, by rw [hf]⟩⟩

theorem claim6_witness :
    (Add baseManager noPathTask).1 = baseManager ∧
    ∃ fld, (Add baseManager noPathTask).2 = some (GoErr.EmptyValue fld) :=
  claim6_add_empty_field_noop baseManager noPathTask (Or.inl rfl)

/-- C2: after a successful `Add` of a record with non-empty path,
peer-identity, client-identity and task-identity, `Get(client, task)`
returns the record as added (with an empty status defaulted to WAITING,
exactly as `Add` stores it), and `GetCIDByPeerIDAndTaskID(peer, task)`
returns the record's CID. -/
theorem claim2_add_get_roundtrip (s : Manager) (t : DfGetTask)
    (hp : t.Path ≠ []) (hpe : t.PeerID ≠ []) (hc : t.CID ≠ []) (ht : t.TaskID ≠ []) :
    (Add s t).2 = none ∧
    Get (Add s t).1 t.CID t.TaskID = Except.ok (statusDefaulted t) ∧
    GetCIDByPeerIDAndTaskID (Add s t).1 t.PeerID t.TaskID = Except.ok t.CID := by
  rw [Add_eq_of_valid s t hp hpe hc ht]
  refine ⟨rfl, ?_, ?_⟩
  · simp [Get, getDfgetTask, generateKey_ok t.CID t.TaskID hc ht, lookupA_putA]
  · simp [GetCIDByPeerIDAndTaskID, generatePeerKey, lookupA_putA]

theorem claim2_witness :
    (Add baseManager sampleTask).2 = none ∧
    Get (Add baseManager sampleTask).1 sampleTask.CID sampleTask.TaskID
      = Except.ok (statusDefaulted sampleTask) ∧
    GetCIDByPeerIDAndTaskID (Add baseManager sampleTask).1 sampleTask.PeerID sampleTask.TaskID
      = Except.ok sampleTask.CID :=
  claim2_add_get_roundtrip baseManager sampleTask
    (by decide) (by decide) (by decide) (by decide)

/-- Explicit form of a successful `Delete`. -/
theorem Delete_eq_of_found (s : Manager) (clientID taskID : GoStr) (r : DfGetTask)
    (hc : clientID ≠ []) (ht : taskID ≠ [])
    (hr : lookupA s.dfgetTaskStore (clientID ++ keyJoinChar :: taskID) = some r) :
    Delete s clientID taskID =
      ({ s with
          ptoc := delA (generatePeerKey r.PeerID r.TaskID) s.ptoc
          dfgetTaskStore := delA (clientID ++ keyJoinChar :: taskID) s.dfgetTaskStore
          metrics :=
            if !s.cfg_isSuperCID clientID then
              { s.metrics with
                  dfgetTasks := bumpG s.metrics.dfgetTasks (r.CallSystem, r.Status) (-1) }
            else s.metrics },
       none) := by
  simp [Delete, generateKey_ok clientID taskID hc ht, hr]

/-- C4: after a successful `Delete(client, task)` of a present record,
`Get(client, task)` fails with NotFound, and
`GetCIDByPeerIDAndTaskID(peer, task)` with the deleted record's peer
and task identities also fails with NotFound. -/
theorem claim4_delete_then_notfound (s : Manager) (clientID taskID : GoStr) (r : DfGetTask)
    (hc : clientID ≠ []) (ht : taskID ≠ [])
    (hr : lookupA s.dfgetTaskStore (clientID ++ keyJoinChar :: taskID) = some r) :
    (Delete s clientID taskID).2 = none ∧
    Get (Delete s clientID taskID).1 clientID taskID = Except.error GoErr.NotFound ∧
    GetCIDByPeerIDAndTaskID (Delete s clientID taskID).1 r.PeerID r.TaskID
      = Except.error GoErr.NotFound := by
  rw [Delete_eq_of_found s clientID taskID r hc ht hr]
  refine ⟨rfl, ?_, ?_⟩
  · simp [Get, getDfgetTask, generateKey_ok clientID taskID hc ht, lookupA_delA]
  · simp [GetCIDByPeerIDAndTaskID, generatePeerKey, lookupA_delA]

theorem claim4_witness :
    (Delete (Add baseManager sampleTask).1 sampleTask.CID sampleTask.TaskID).2 = none ∧
    Get (Delete (Add baseManager sampleTask).1 sampleTask.CID sampleTask.TaskID).1
      sampleTask.CID sampleTask.TaskID = Except.error GoErr.NotFound ∧
    GetCIDByPeerIDAndTaskID
      (Delete (Add baseManager sampleTask).1 sampleTask.CID sampleTask.TaskID).1
      (statusDefaulted sampleTask).PeerID (statusDefaulted sampleTask).TaskID
      = Except.error GoErr.NotFound :=
  claim4_delete_then_notfound (Add baseManager sampleTask).1
    sampleTask.CID sampleTask.TaskID (statusDefaulted sampleTask)
    (by decide) (by decide) (by decide)

/-- C1 counterexample: on a record whose status is SUCCESS, a FAILED
update does NOT increment the failure counter — the source checks the
record's status field after the sticky-SUCCESS guard left it at
SUCCESS, so the check `dfgetTask.Status == FAILED` is false. -/
theorem claim1_counterexample :
    ¬ ((UpdateStatus succManager ("c".toList) ("t".toList)
          DfGetTaskStatusFAILED).1.metrics.dfgetTasksFailCount ("cs".toList)
        = succManager.metrics.dfgetTasksFailCount ("cs".toList) + 1) := by
  decide

/-- C1 (amended): `UpdateStatus(client, task, FAILED)` on a record whose
status is SUCCESS leaves the record's status at SUCCESS, performs no
gauge movement, and does NOT increment the failure counter: the whole
state is unchanged and the call reports no error. -/
theorem claim1_amended_success_sticky (s : Manager) (clientID taskID : GoStr) (r : DfGetTask)
    (hc : clientID ≠ []) (ht : taskID ≠ [])
    (hr : lookupA s.dfgetTaskStore (clientID ++ keyJoinChar :: taskID) = some r)
    (hst : r.Status = DfGetTaskStatusSUCCESS) :
    UpdateStatus s clientID taskID DfGetTaskStatusFAILED = (s, none) := by
  simp only [UpdateStatus, generateKey_ok clientID taskID hc ht, hr]
  rw [if_neg (by simp [hst])]
  rw [if_neg (by rw [hst]; decide)]

theorem claim1_witness :
    UpdateStatus succManager ("c".toList) ("t".toList) DfGetTaskStatusFAILED
      = (succManager, none) :=
  claim1_amended_success_sticky succManager ("c".toList) ("t".toList) succTask
    (by decide) (by decide) (by decide) (by decide)

/-- Shape analysis of `UpdateStatus`: either the state is unchanged, or
the only mutation is an in-place status overwrite of the found record. -/
theorem UpdateStatus_cases (s : Manager) (clientID taskID status : GoStr) :
    (UpdateStatus s clientID taskID status).1 = s ∨
    (∃ t, lookupA s.dfgetTaskStore (clientID ++ keyJoinChar :: taskID) = some t ∧
      (UpdateStatus s clientID taskID status).1.dfgetTaskStore
        = putA (clientID ++ keyJoinChar :: taskID) { t with Status := status }
            s.dfgetTaskStore ∧
      (UpdateStatus s clientID taskID status).1.ptoc = s.ptoc) := by
  by_cases hc : clientID = []
  · left; simp [UpdateStatus, generateKey, (isEmptyStr_iff _).mpr hc]
  · by_cases ht : taskID = []
    · left
      simp [UpdateStatus, generateKey, (isEmptyStr_iff _).mpr ht, isEmptyStr_eq_false _ hc]
    · cases hl : lookupA s.dfgetTaskStore (clientID ++ keyJoinChar :: taskID) with
      | none => left; simp [UpdateStatus, generateKey_ok clientID taskID hc ht, hl]
      | some t =>
          by_cases hst : t.Status = DfGetTaskStatusSUCCESS
          · left
            simp only [UpdateStatus, generateKey_ok clientID taskID hc ht, hl]
            rw [if_neg (by simp [hst]), if_neg (by rw [hst]; decide)]
          · right
            refine ⟨t, rfl, ?_, ?_⟩ <;>
              (simp only [UpdateStatus, generateKey_ok clientID taskID hc ht, hl];
               rw [if_pos hst])

/-- C10: every call to `UpdateStatus`, successful or not, modifies at
most the Status field of the addressed record: the peer index, the set
of keys of the primary store, every other record, and every non-Status
field of the addressed record are unchanged. -/
theorem claim10_update_frame (s : Manager) (clientID taskID status : GoStr) :
    (UpdateStatus s clientID taskID status).1.ptoc = s.ptoc ∧
    (∀ k, (lookupA (UpdateStatus s clientID taskID status).1.dfgetTaskStore k).isSome
        = (lookupA s.dfgetTaskStore k).isSome) ∧
    (∀ k, k ≠ clientID ++ keyJoinChar :: taskID →
        lookupA (UpdateStatus s clientID taskID status).1.dfgetTaskStore k
          = lookupA s.dfgetTaskStore k) ∧
    (∀ u u', lookupA s.dfgetTaskStore (clientID ++ keyJoinChar :: taskID) = some u →
        lookupA (UpdateStatus s clientID taskID status).1.dfgetTaskStore
          (clientID ++ keyJoinChar :: taskID) = some u' →
        u'.CID = u.CID ∧ u'.TaskID = u.TaskID ∧ u'.PeerID = u.PeerID ∧
        u'.Path = u.Path ∧ u'.CallSystem = u.CallSystem ∧
        u'.PieceSize = u.PieceSize ∧ u'.Dfdaemon = u.Dfdaemon) := by
  rcases UpdateStatus_cases s clientID taskID status with h | ⟨t, hl, hstore, hptoc⟩
  · rw [h]
    refine ⟨rfl, fun k => rfl, fun k _ => rfl, fun u u' h1 h2 => ?_⟩
    rw [h1] at h2
    injection h2 with h2
    rw [h2]
    exact ⟨rfl, rfl, rfl, rfl, rfl, rfl, rfl⟩
  · refine ⟨hptoc, ?_, ?_, ?_⟩
    · intro k
      rw [hstore, lookupA_putA]
      by_cases hk : k = clientID ++ keyJoinChar :: taskID
      · rw [if_pos hk, hk, hl]; rfl
      · rw [if_neg hk]
    · intro k hk
      rw [hstore, lookupA_putA, if_neg hk]
    · intro u u' h1 h2
      rw [hstore, lookupA_putA, if_pos rfl] at h2
      rw [hl] at h1
      injection h1 with h1
      injection h2 with h2
      rw [← h1, ← h2]
      exact ⟨rfl, rfl, rfl, rfl, rfl, rfl, rfl⟩

theorem claim10_witness :
    (UpdateStatus succManager ("c".toList) ("t".toList) ("RUNNING".toList)).1.ptoc
      = succManager.ptoc :=
  (claim10_update_frame succManager ("c".toList) ("t".toList) ("RUNNING".toList)).1

/-- C7: for every record accepted by `Add`, the live-task gauge at
(call-system, initial status) and the registration counter at
call-system are incremented exactly when NOT both the peer-identity is
the supernode's reserved peer identity and the client-identity is the
supernode's reserved client identity. -/
theorem claim7_add_metrics_iff (s : Manager) (t : DfGetTask)
    (hp : t.Path ≠ []) (hpe : t.PeerID ≠ []) (hc : t.CID ≠ []) (ht : t.TaskID ≠ []) :
    (Add s t).2 = none ∧
    (((Add s t).1.metrics.dfgetTasks (t.CallSystem, (statusDefaulted t).Status)
        = s.metrics.dfgetTasks (t.CallSystem, (statusDefaulted t).Status) + 1 ∧
      (Add s t).1.metrics.dfgetTasksRegisterCount t.CallSystem
        = s.metrics.dfgetTasksRegisterCount t.CallSystem + 1)
      ↔ ¬(s.cfg_isSuperPID t.PeerID = true ∧ s.cfg_isSuperCID t.CID = true)) := by
  rw [Add_eq_of_valid s t hp hpe hc ht]
  refine ⟨rfl, ?_⟩
  by_cases ha : s.cfg_isSuperPID t.PeerID = true <;>
    by_cases hb : s.cfg_isSuperCID t.CID = true <;>
    simp [ha, hb, bumpG, bumpC]

theorem claim7_witness :
    (Add baseManager sampleTask).1.metrics.dfgetTasks
        (sampleTask.CallSystem, (statusDefaulted sampleTask).Status)
      = baseManager.metrics.dfgetTasks
          (sampleTask.CallSystem, (statusDefaulted sampleTask).Status) + 1 :=
  ((claim7_add_metrics_iff baseManager sampleTask
      (by decide) (by decide) (by decide) (by decide)).2.mpr (by decide)).1

/-- C9 counterexample: for the non-empty peer-identity "p" and the
non-empty task-identity "x@y" (which contains the separator), splitting
the encoded key "p@x@y" on the separator and taking the last segment
yields "y", not "x@y" — the claim's universal statement fails. -/
theorem claim9_counterexample :
    ¬ ((splitOnChar keyJoinChar (generatePeerKey ("p".toList) ("x@y".toList))).getLastD []
        = "x@y".toList) := by
  decide

/-- C9 (amended): for every non-empty peer-identity `a` (including ones
containing the separator) and every non-empty task-identity `b` that
does NOT contain the separator, splitting the encoded composite key of
(a, b) on the separator and taking the last segment yields `b`;
consequently `GetCIDAndTaskIDsByPeerID` recovers the task identity of a
matching entry with such a key as the last separator-delimited segment. -/
theorem claim9_amended (a b : GoStr) (ha : a ≠ []) (hb : b ≠ [])
    (hsep : keyJoinChar ∉ b) :
    (splitOnChar keyJoinChar (generatePeerKey a b)).getLastD [] = b ∧
    (∀ (m : Manager) (c : GoStr), m.ptoc = [(generatePeerKey a b, c)] →
      GetCIDAndTaskIDsByPeerID m a = [(c, b)]) := by
  have hsplit : (splitOnChar keyJoinChar (generatePeerKey a b)).getLastD [] = b := by
    rw [generatePeerKey, getLastD_splitOnChar_append keyJoinChar a b [],
      splitOnChar_of_not_mem keyJoinChar b hsep, List.getLastD_cons]
    rfl
  refine ⟨hsplit, fun m c hm => ?_⟩
  have hpre : List.isPrefixOf (a ++ [keyJoinChar]) (generatePeerKey a b) = true := by
    rw [ List.isPrefixOf_iff_prefix, generatePeerKey,
      show a ++ keyJoinChar :: b = (a ++ [keyJoinChar]) ++ b by simp]
    exact List.prefix_append _ _
  have hlk : lookupA [(generatePeerKey a b, c)] (generatePeerKey a b) = some c := by
    simp [lookupA]
  unfold GetCIDAndTaskIDsByPeerID
  rw [hm]
  simp only [List.foldl_cons, List.foldl_nil, hpre, if_true, hlk, putA, hsplit]

theorem claim9_witness :
    (splitOnChar keyJoinChar (generatePeerKey ("p@q".toList) ("t".toList))).getLastD []
      = "t".toList :=
  (claim9_amended ("p@q".toList) ("t".toList) (by decide) (by decide) (by decide)).1

theorem isSuffixOf_key (tid p : GoStr) :
    List.isSuffixOf (keyJoinChar :: tid) (p ++ keyJoinChar :: tid) = true := by
  rw [List.isSuffixOf_iff_suffix]
  exact List.suffix_append p _

theorem peerKey_ne_of_ne (p q suf : GoStr) (h : p ≠ q) : p ++ suf ≠ q ++ suf :=
  fun heq => h (List.append_cancel_right heq)

/-- C8: in a registry built by adding exactly three records that share
the task-identity `tid` and have pairwise distinct peer-identities and
pairwise distinct content identifiers, `GetCIDsByTaskID(tid)` returns a
list whose multiset of elements is exactly the three content
identifiers. -/
theorem claim8_cids_by_taskid (pid cid : GoStr → Bool) (tid : GoStr)
    (r1 r2 r3 : DfGetTask)
    (ht1 : r1.TaskID = tid) (ht2 : r2.TaskID = tid) (ht3 : r3.TaskID = tid)
    (htid : tid ≠ [])
    (hp1 : r1.Path ≠ []) (hp2 : r2.Path ≠ []) (hp3 : r3.Path ≠ [])
    (hpe1 : r1.PeerID ≠ []) (hpe2 : r2.PeerID ≠ []) (hpe3 : r3.PeerID ≠ [])
    (hc1 : r1.CID ≠ []) (hc2 : r2.CID ≠ []) (hc3 : r3.CID ≠ [])
    (hpne12 : r1.PeerID ≠ r2.PeerID) (hpne13 : r1.PeerID ≠ r3.PeerID)
    (hpne23 : r2.PeerID ≠ r3.PeerID)
    (hcne12 : r1.CID ≠ r2.CID) (hcne13 : r1.CID ≠ r3.CID) (hcne23 : r2.CID ≠ r3.CID) :
    (↑(GetCIDsByTaskID (Add (Add (Add (NewManager pid cid) r1).1 r2).1 r3).1 tid)
        : Multiset GoStr)
      = ↑[r1.CID, r2.CID, r3.CID] := by
  have hk12 : r1.PeerID ++ keyJoinChar :: tid ≠ r2.PeerID ++ keyJoinChar :: tid :=
    peerKey_ne_of_ne _ _ _ hpne12
  have hk13 : r1.PeerID ++ keyJoinChar :: tid ≠ r3.PeerID ++ keyJoinChar :: tid :=
    peerKey_ne_of_ne _ _ _ hpne13
  have hk23 : r2.PeerID ++ keyJoinChar :: tid ≠ r3.PeerID ++ keyJoinChar :: tid :=
    peerKey_ne_of_ne _ _ _ hpne23
  have hptoc : (Add (Add (Add (NewManager pid cid) r1).1 r2).1 r3).1.ptoc
      = [(r1.PeerID ++ keyJoinChar :: tid, r1.CID),
         (r2.PeerID ++ keyJoinChar :: tid, r2.CID),
         (r3.PeerID ++ keyJoinChar :: tid, r3.CID)] := by
    rw [Add_eq_of_valid _ r3 hp3 hpe3 hc3 (ht3 ▸ htid),
      Add_eq_of_valid _ r2 hp2 hpe2 hc2 (ht2 ▸ htid),
      Add_eq_of_valid _ r1 hp1 hpe1 hc1 (ht1 ▸ htid)]
    simp only [generatePeerKey, ht1, ht2, ht3, NewManager]
    simp [putA, hk12, hk13, hk23]
  have hlist : GetCIDsByTaskID (Add (Add (Add (NewManager pid cid) r1).1 r2).1 r3).1 tid
      = [r1.CID, r2.CID, r3.CID] := by
    unfold GetCIDsByTaskID
    rw [hptoc]
    simp only [List.foldl_cons, List.foldl_nil, isSuffixOf_key, if_true, lookupA,
      if_pos rfl, if_neg hk12, if_neg hk13, if_neg hk23]
    rfl
  rw [hlist]

theorem claim8_witness :
    (↑(GetCIDsByTaskID (Add (Add (Add baseManager task8a).1 task8b).1 task8c).1
        ("T".toList)) : Multiset GoStr)
      = ↑["a1".toList, "a2".toList, "a3".toList] :=
  claim8_cids_by_taskid cfgNone cfgNone ("T".toList) task8a task8b task8c
    rfl rfl rfl (by decide) (by decide) (by decide) (by decide)
    (by decide) (by decide) (by decide) (by decide) (by decide) (by decide)
    (by decide) (by decide) (by decide) (by decide) (by decide) (by decide)

theorem peerKeyOf_statusDefaulted (t : DfGetTask) :
    peerKeyOf (statusDefaulted t) = generatePeerKey t.PeerID t.TaskID := by
  unfold peerKeyOf
  rw [statusDefaulted_PeerID, statusDefaulted_TaskID]

/-- Validation failure: `Add` leaves the state unchanged when a required field is blank. -/
theorem Add_invalid_noop (s : Manager) (t : DfGetTask)
    (h : ¬(t.Path ≠ [] ∧ t.PeerID ≠ [] ∧ t.CID ≠ [] ∧ t.TaskID ≠ [])) :
    (Add s t).1 = s := by
  by_cases hp : isEmptyStr t.Path = true
  · simp [Add, hp]
  · by_cases hpe : isEmptyStr t.PeerID = true
    · simp [Add, hp, hpe]
    · by_cases hcc : isEmptyStr t.CID = true
      · simp [Add, generateKey, hp, hpe, hcc]
      · by_cases htt : isEmptyStr t.TaskID = true
        · simp [Add, generateKey, hp, hpe, hcc, htt]
        · exfalso
          apply h
          refine ⟨?_, ?_, ?_, ?_⟩ <;> intro hnil
          · exact hp ((isEmptyStr_iff _).mpr hnil)
          · exact hpe ((isEmptyStr_iff _).mpr hnil)
          · exact hcc ((isEmptyStr_iff _).mpr hnil)
          · exact htt ((isEmptyStr_iff _).mpr hnil)

/-- Shape analysis of `Delete`: either the state is unchanged, or the
found record's peer-index entry and primary entry are both removed. -/
theorem Delete_cases (s : Manager) (clientID taskID : GoStr) :
    (Delete s clientID taskID).1 = s ∨
    (∃ t, lookupA s.dfgetTaskStore (clientID ++ keyJoinChar :: taskID) = some t ∧
      (Delete s clientID taskID).1.dfgetTaskStore
        = delA (clientID ++ keyJoinChar :: taskID) s.dfgetTaskStore ∧
      (Delete s clientID taskID).1.ptoc = delA (peerKeyOf t) s.ptoc) := by
  by_cases hc : clientID = []
  · left; simp [Delete, generateKey, (isEmptyStr_iff _).mpr hc]
  · by_cases ht : taskID = []
    · left
      simp [Delete, generateKey, (isEmptyStr_iff _).mpr ht, isEmptyStr_eq_false _ hc]
    · cases hl : lookupA s.dfgetTaskStore (clientID ++ keyJoinChar :: taskID) with
      | none => left; simp [Delete, generateKey_ok clientID taskID hc ht, hl]
      | some t =>
          right
          refine ⟨t, rfl, ?_, ?_⟩ <;>
            simp [Delete, generateKey_ok clientID taskID hc ht, hl, peerKeyOf]

/-- C3 counterexample: after the two Adds of `invState` (a legal
sequence of operations), the record stored under key "c1@t" is live but
the only peer-index entry for its peer key "p@t" holds "c2", not its
own CID "c1" — the lockstep invariant fails. -/
theorem claim3_counterexample : ¬ Inv invState := by
  intro h
  have h1 := h.1 ("c1@t".toList) invTask1 (by decide)
  have h2 : lookupA invState.ptoc (peerKeyOf invTask1) = some ("c2".toList) := by decide
  rw [h2] at h1
  exact absurd h1 (by decide)

/-- C3 (amended): the lockstep invariant holds for a fresh manager and
is preserved by every `Delete` and every `UpdateStatus`; it is
preserved by `Add` provided the added record's primary key and peer key
are both fresh.  (Unrestricted `Add` breaks it: an overwriting `Add`
that reuses a peer key orphans the earlier record's index entry — see
the counterexample.) -/
theorem claim3_amended :
    (∀ pid cid, Inv (NewManager pid cid)) ∧
    (∀ s t, Inv s →
      lookupA s.dfgetTaskStore (t.CID ++ keyJoinChar :: t.TaskID) = none →
      lookupA s.ptoc (generatePeerKey t.PeerID t.TaskID) = none →
      Inv (Add s t).1) ∧
    (∀ s clientID taskID, Inv s → Inv (Delete s clientID taskID).1) ∧
    (∀ s clientID taskID status, Inv s → Inv (UpdateStatus s clientID taskID status).1) := by
  refine ⟨?_, ?_, ?_, ?_⟩
  · -- a fresh manager: both stores are empty
    intro pid cid
    refine ⟨?_, ?_, ?_⟩
    · intro k t h; exact absurd h (by simp [NewManager, lookupA])
    · intro pk c h; exact absurd h (by simp [NewManager, lookupA])
    · intro k₁ t₁ k₂ t₂ h1 _ _; exact absurd h1 (by simp [NewManager, lookupA])
  · -- Add with fresh primary key and fresh peer key
    intro s t hInv hfk hfp
    by_cases hv : t.Path ≠ [] ∧ t.PeerID ≠ [] ∧ t.CID ≠ [] ∧ t.TaskID ≠ []
    case neg => rw [Add_invalid_noop s t hv]; exact hInv
    obtain ⟨hp, hpe, hcc, htt⟩ := hv
    obtain ⟨ha, hb, hc3⟩ := hInv
    rw [Add_eq_of_valid s t hp hpe hcc htt]
    dsimp only
    refine ⟨?_, ?_, ?_⟩
    · intro k u hu
      rw [lookupA_putA] at hu
      by_cases hk : k = t.CID ++ keyJoinChar :: t.TaskID
      · rw [if_pos hk] at hu
        injection hu with hu
        subst hu
        rw [peerKeyOf_statusDefaulted, statusDefaulted_CID, lookupA_putA, if_pos rfl]
      · rw [if_neg hk] at hu
        have hmem := ha k u hu
        by_cases hpku : peerKeyOf u = generatePeerKey t.PeerID t.TaskID
        · exfalso; rw [hpku, hfp] at hmem; exact Option.noConfusion hmem
        · rw [lookupA_putA, if_neg hpku]; exact hmem
    · intro pk c hpc
      rw [lookupA_putA] at hpc
      by_cases hpk : pk = generatePeerKey t.PeerID t.TaskID
      · rw [if_pos hpk] at hpc
        injection hpc with hpc
        refine ⟨t.CID ++ keyJoinChar :: t.TaskID, statusDefaulted t, ?_, ?_, ?_⟩
        · rw [lookupA_putA, if_pos rfl]
        · rw [peerKeyOf_statusDefaulted]; exact hpk
        · rw [← hpc, statusDefaulted_CID]
      · rw [if_neg hpk] at hpc
        obtain ⟨k, u, hku, hpkeq, hceq⟩ := hb pk c hpc
        have hkne : k ≠ t.CID ++ keyJoinChar :: t.TaskID := by
          intro hkk; rw [hkk, hfk] at hku; exact Option.noConfusion hku
        exact ⟨k, u, by rw [lookupA_putA, if_neg hkne]; exact hku, hpkeq, hceq⟩
    · intro k₁ u₁ k₂ u₂ h1 h2 hpeq
      rw [lookupA_putA] at h1 h2
      by_cases hk1 : k₁ = t.CID ++ keyJoinChar :: t.TaskID <;>
        by_cases hk2 : k₂ = t.CID ++ keyJoinChar :: t.TaskID
      · rw [hk1, hk2]
      · rw [if_pos hk1] at h1
        rw [if_neg hk2] at h2
        injection h1 with h1
        exfalso
        have hm := ha k₂ u₂ h2
        rw [← hpeq, ← h1, peerKeyOf_statusDefaulted, hfp] at hm
        exact Option.noConfusion hm
      · rw [if_neg hk1] at h1
        rw [if_pos hk2] at h2
        injection h2 with h2
        exfalso
        have hm := ha k₁ u₁ h1
        rw [hpeq, ← h2, peerKeyOf_statusDefaulted, hfp] at hm
        exact Option.noConfusion hm
      · rw [if_neg hk1] at h1
        rw [if_neg hk2] at h2
        exact hc3 k₁ u₁ k₂ u₂ h1 h2 hpeq
  · -- Delete
    intro s clientID taskID hInv
    rcases Delete_cases s clientID taskID with h | ⟨t, hl, hstore, hptoc⟩
    · rw [h]; exact hInv
    · obtain ⟨ha, hb, hc3⟩ := hInv
      refine ⟨?_, ?_, ?_⟩
      · intro k u hu
        rw [hstore, lookupA_delA] at hu
        by_cases hk : k = clientID ++ keyJoinChar :: taskID
        · rw [if_pos hk] at hu; exact Option.noConfusion hu
        · rw [if_neg hk] at hu
          rw [hptoc, lookupA_delA]
          by_cases hpk : peerKeyOf u = peerKeyOf t
          · exact absurd (hc3 k u (clientID ++ keyJoinChar :: taskID) t hu hl hpk) hk
          · rw [if_neg hpk]; exact ha k u hu
      · intro pk c hpc
        rw [hptoc, lookupA_delA] at hpc
        by_cases hpk : pk = peerKeyOf t
        · rw [if_pos hpk] at hpc; exact Option.noConfusion hpc
        · rw [if_neg hpk] at hpc
          obtain ⟨k, u, hku, hpkeq, hceq⟩ := hb pk c hpc
          have hkne : k ≠ clientID ++ keyJoinChar :: taskID := by
            intro hkk
            rw [hkk, hl] at hku
            injection hku with hku
            exact hpk (by rw [hpkeq, ← hku])
          exact ⟨k, u, by rw [hstore, lookupA_delA, if_neg hkne]; exact hku, hpkeq, hceq⟩
      · intro k₁ u₁ k₂ u₂ h1 h2 hpeq
        rw [hstore, lookupA_delA] at h1 h2
        by_cases hk1 : k₁ = clientID ++ keyJoinChar :: taskID
        · rw [if_pos hk1] at h1; exact Option.noConfusion h1
        · by_cases hk2 : k₂ = clientID ++ keyJoinChar :: taskID
          · rw [if_pos hk2] at h2; exact Option.noConfusion h2
          · rw [if_neg hk1] at h1
            rw [if_neg hk2] at h2
            exact hc3 k₁ u₁ k₂ u₂ h1 h2 hpeq
  · -- UpdateStatus
    intro s clientID taskID status hInv
    rcases UpdateStatus_cases s clientID taskID status with h | ⟨t, hl, hstore, hptoc⟩
    · rw [h]; exact hInv
    · obtain ⟨ha, hb, hc3⟩ := hInv
      have hpk0 : peerKeyOf { t with Status := status } = peerKeyOf t := rfl
      have hcid0 : ({ t with Status := status } : DfGetTask).CID = t.CID := rfl
      refine ⟨?_, ?_, ?_⟩
      · intro k u hu
        rw [hstore, lookupA_putA] at hu
        rw [hptoc]
        by_cases hk : k = clientID ++ keyJoinChar :: taskID
        · rw [if_pos hk] at hu
          injection hu with hu
          subst hu
          rw [hpk0, hcid0]
          exact ha _ t hl
        · rw [if_neg hk] at hu
          exact ha k u hu
      · intro pk c hpc
        rw [hptoc] at hpc
        obtain ⟨k, u, hku, hpkeq, hceq⟩ := hb pk c hpc
        by_cases hk : k = clientID ++ keyJoinChar :: taskID
        · rw [hk, hl] at hku
          injection hku with hku
          refine ⟨clientID ++ keyJoinChar :: taskID, { t with Status := status }, ?_, ?_, ?_⟩
          · rw [hstore, lookupA_putA, if_pos rfl]
          · rw [hpk0, hpkeq, ← hku]
          · rw [hcid0, hceq, ← hku]
        · refine ⟨k, u, ?_, hpkeq, hceq⟩
          rw [hstore, lookupA_putA, if_neg hk]; exact hku
      · intro k₁ u₁ k₂ u₂ h1 h2 hpeq
        rw [hstore, lookupA_putA] at h1 h2
        by_cases hk1 : k₁ = clientID ++ keyJoinChar :: taskID <;>
          by_cases hk2 : k₂ = clientID ++ keyJoinChar :: taskID
        · rw [hk1, hk2]
        · rw [if_pos hk1] at h1
          rw [if_neg hk2] at h2
          injection h1 with h1
          rw [← h1, hpk0] at hpeq
          rw [hk1]
          exact hc3 (clientID ++ keyJoinChar :: taskID) t k₂ u₂ hl h2 hpeq
        · rw [if_neg hk1] at h1
          rw [if_pos hk2] at h2
          injection h2 with h2
          rw [← h2, hpk0] at hpeq
          rw [hk2]
          exact hc3 k₁ u₁ (clientID ++ keyJoinChar :: taskID) t h1 hl hpeq
        · rw [if_neg hk1] at h1
          rw [if_neg hk2] at h2
          exact hc3 k₁ u₁ k₂ u₂ h1 h2 hpeq

theorem claim3_witness : Inv (Delete baseManager ("c".toList) ("t".toList)).1 :=
  claim3_amended.2.2.1 baseManager ("c".toList) ("t".toList)
    (claim3_amended.1 cfgNone cfgNone)
